import Mathlib

/-!
Shallow embedding of `s3prl/downstream/ctc/expert.py` (class `DownstreamExpert`),
covering construction (`__init__`), the batch step (`forward`) and the
epoch-end bookkeeping (`log_records`).

Modelling conventions:
* Python floats are modelled as `ℚ`; machine tensors of shape (N, T, C) as
  `List (List (List ℚ))` (batch-major nested lists).
* The records accumulator (`defaultdict(list)` of heterogeneous lists) is an
  ordered association list `List (String × List Val)` where a `Val` is a
  number or a text; a missing key defaults to `[]` as in `defaultdict`.
* A Python exception (IndexError, ValueError, NameError, KeyError) is `none`
  of an `Option`, or an explicit error constructor where the mutations made
  before the raise matter.
* External collaborators (tokenizer decode, the sequence model, the CTC loss
  numeric value, metric functions, the model registry imported from
  `..asr.model`) are opaque parameters: the theorems quantify over them.
-/

namespace S3prlCtc

/-- A value stored in a records list: a numeric scalar (Python
`int`/`float`/0-dim `torch.Tensor`) or a text. -/
inductive Val where
  | num (q : ℚ)
  | str (s : String)
deriving DecidableEq, Repr

/-- Rendering of a record value inside an f-string. -/
def Val.render : Val → String
  | Val.num q => toString q
  | Val.str s => s

/-- The records accumulator: insertion-ordered mapping from field name to the
list of accumulated values, as a Python `defaultdict(list)`. -/
abbrev Records := List (String × List Val)

/-- `records[k]` read access with the `defaultdict` default `[]`. -/
def lookupD (r : Records) (k : String) : List Val :=
  match r.find? (fun kv => kv.1 == k) with
  | some kv => kv.2
  | none => []

/-- `records[k].append(v)`: appends to the existing entry, or creates the key
at the end of the insertion order (as a Python dict would). -/
def appendRec : Records → String → Val → Records
  | [], k, v => [(k, [v])]
  | (k', vs) :: rest, k, v =>
    if k' == k then (k', vs ++ [v]) :: rest
    else (k', vs) :: appendRec rest k v

/-- `type(values[0]) in [int, float, torch.Tensor]` (line 105).
`none` models the IndexError raised by `values[0]` on an empty list. -/
def headIsNumeric : List Val → Option Bool
  | [] => none
  | Val.num _ :: _ => some true
  | Val.str _ :: _ => some false

/-- `torch.FloatTensor(values)` (line 106): succeeds only when every element
is numeric. -/
def toFloats : List Val → Option (List ℚ)
  | [] => some []
  | Val.num q :: rest => (toFloats rest).map (fun qs => q :: qs)
  | Val.str _ :: _ => none

/-- `.mean().item()` of a list of scalars. -/
def listMean (l : List ℚ) : ℚ := l.sum / (l.length : ℚ)

/-- Line 115: `average > self.best_score if self.metric_higher_better else
average < self.best_score`. -/
def save_criterion (higher : Bool) (average best : ℚ) : Bool :=
  if higher then decide (average > best) else decide (average < best)

/-- The adapter state read by `forward`/`log_records`: configuration fields
fixed at construction plus the mutable `best_score` buffer. -/
structure ExpertState where
  corpus_name : String
  metrics : List String
  metric_higher_better : Bool
  eval_dataloaders : List String
  best_score : ℚ
  pad_idx : ℕ
deriving Repr, DecidableEq

/-- `str.lower()`, written over the character list (the same per-character
lowering as `String.toLower`, in a form the kernel can evaluate). -/
def lowerString (s : String) : String := String.mk (s.data.map Char.toLower)

/-- `self._get_task_name()` (line 52). -/
def get_task_name (st : ExpertState) : String :=
  "ctc-" ++ lowerString st.corpus_name

/-- One iteration of the scalar-averaging loop of `log_records`
(lines 105-118), for one `(key, values)` entry of the records dict, threading
the accumulated `(save_names, best_score)` pair.  `none` models an uncaught
exception: `values[0]` on an empty list, `torch.FloatTensor` on a mixed list,
or indexing an empty `metrics`/`eval_dataloaders` configuration list. -/
def logStep (st : ExpertState) (split key : String) (values : List Val)
    (acc : List String × ℚ) : Option (List String × ℚ) :=
  match headIsNumeric values with
  | none => none
  | some false => some acc
  | some true =>
    match toFloats values with
    | none => none
    | some floats =>
      let average := listMean floats
      match st.metrics.head? with
      | none => none
      | some m0 =>
        if key == m0 then
          match st.eval_dataloaders.head? with
          | none => none
          | some e0 =>
            if split == e0 && save_criterion st.metric_higher_better average acc.2 then
              some (acc.1 ++ [split ++ "-best.ckpt"], average)
            else some acc
        else some acc

/-- The scalar-averaging loop of `log_records` (lines 104-118) over the
entries of the records dict, in insertion order. -/
def logLoop (st : ExpertState) (split : String) :
    Records → List String × ℚ → Option (List String × ℚ)
  | [], acc => some acc
  | (key, values) :: rest, acc =>
    (logStep st split key values acc).bind (logLoop st split rest)

/-- `round(n / 5)` for a natural `n` (line 120).  Python rounds to the nearest
double; `n / 5` is never exactly a half-integer, so banker's tie-breaking
never fires and the result is the nearest integer, `⌊(2 n + 5) / 10⌋`. -/
def pyRound5 (n : ℕ) : ℕ := (2 * n + 5) / 10

/-- `range(0, n, step)` for `step ≥ 1`. -/
def rangeL (n step : ℕ) : List ℕ :=
  (List.range ((n + step - 1) / step)).map (fun j => j * step)

/-- Sequencing of an option-valued map, mirroring a loop body that can
raise: the first `none` aborts the whole traversal. -/
def collectSome (f : α → Option β) : List α → Option (List β)
  | [] => some []
  | a :: as => (f a).bind (fun b => (collectSome f as).map (fun bs => b :: bs))

/-- The text-sampling loop of `log_records` (lines 120-128): strides through
`records['filename']` with step `round(len / 5)` and emits
(tag, body) text-log pairs.  `none` models the `ValueError` of a zero
`range` step and the `IndexError` of a too-short hypothesis/groundtruth
list. -/
def textLogs (taskName split : String) (records : Records) : Option (List (String × String)) :=
  let files := lookupD records "filename"
  let step := pyRound5 files.length
  if step = 0 then none
  else
    collectSome (fun i =>
      match files.get? i, (lookupD records "hypothesis").get? i,
            (lookupD records "groundtruth").get? i with
      | some filename, some hyp, some gt =>
        some (taskName ++ "/" ++ split ++ "-" ++ filename.render,
          "**hypothesis**: " ++ hyp.render ++ "<br>**groundtruth**: " ++ gt.render)
      | _, _, _ => none)
      (rangeL files.length step)

/-- What one `log_records` call produces: the returned `save_names`, the
`best_score` buffer after the call, and the emitted text logs. -/
structure LogResult where
  save_names : List String
  best_score : ℚ
  texts : List (String × String)
deriving DecidableEq, Repr

/-- `DownstreamExpert.log_records` (lines 102-130).  `none` models an uncaught
exception; otherwise the result carries the returned `save_names`, the updated
`best_score` and the emitted text logs. -/
def log_records (st : ExpertState) (split : String) (records : Records) :
    Option LogResult :=
  match logLoop st split records ([], st.best_score) with
  | none => none
  | some (saves, best) =>
    match textLogs (get_task_name st) split records with
    | none => none
    | some texts => some ⟨saves, best, texts⟩

/-- Lookup of a key's value list, `none` when the key is absent. -/
def lookupRec (r : Records) (k : String) : Option (List Val) :=
  (r.find? (fun kv => kv.1 == k)).map (fun kv => kv.2)

/-- The save condition of lines 114-116, as a predicate on the inputs of one
`log_records` call: the records hold the primary metric (`metrics[0]`) as a
numeric field, the split is the first configured evaluation split, and the
field's mean beats `b` in the configured direction. -/
def bestUpdateCond (st : ExpertState) (split : String) (l : Records) (b : ℚ) : Bool :=
  match st.metrics.head?, st.eval_dataloaders.head? with
  | some m0, some e0 =>
    match lookupRec l m0 with
    | some values =>
      match toFloats values with
      | some floats =>
        split == e0 && save_criterion st.metric_higher_better (listMean floats) b
      | none => false
    | none => false
  | _, _ => false

/-- The save condition of lines 114-116 for one records entry
`(key, values)` against the running best `b`. -/
def entryTrigger (st : ExpertState) (split key : String) (values : List Val) (b : ℚ) : Bool :=
  match st.metrics.head?, st.eval_dataloaders.head? with
  | some m0, some e0 =>
    match toFloats values with
    | some (q :: qs) =>
      key == m0 &&
        (split == e0 && save_criterion st.metric_higher_better (listMean (q :: qs)) b)
    | _ => false
  | _, _ => false

/-- The mean of the primary metric's recorded values, when present and
numeric. -/
def primaryMean (st : ExpertState) (l : Records) : Option ℚ :=
  match st.metrics.head? with
  | none => none
  | some m0 =>
    match lookupRec l m0 with
    | none => none
    | some values => (toFloats values).map listMean

/-! ### The batch step `forward` (lines 60-99) -/

/-- `[len(x) for x in xs]` — per-utterance lengths, taken before padding
(lines 62-63). -/
def lengthsOf (xs : List (List α)) : List ℕ := xs.map List.length

/-- The batch-maximum sequence length. -/
def maxLen (xs : List (List α)) : ℕ := (lengthsOf xs).foldr max 0

/-- `torch.nn.utils.rnn.pad_sequence(xs, batch_first=True, padding_value=pad)`
(lines 64-69): right-pads every sequence to the batch maximum length. -/
def pad_sequence (xs : List (List α)) (pad : α) : List (List α) :=
  xs.map (fun s => s ++ List.replicate (maxLen xs - s.length) pad)

/-- `torch.argmax` over the class axis: index of the first maximal entry. -/
def argmaxAux : List ℚ → ℕ → ℕ → ℚ → ℕ
  | [], _, bi, _ => bi
  | q :: rest, i, bi, bq =>
    if bq < q then argmaxAux rest (i + 1) i q else argmaxAux rest (i + 1) bi bq

/-- `row.argmax(dim=-1)` for one frame's class scores. -/
def argmaxIdx : List ℚ → ℕ
  | [] => 0
  | q :: rest => argmaxAux rest 1 0 q

/-- The external collaborators `forward` calls, taken as opaque parameters:
the projector (`self.projector`, applied frame-wise), the sequence model
(`self.model`, from padded projected features and true lengths to
(log-probabilities, output lengths)), the CTC loss value (`self.objective`),
the tokenizer decode (`self.tokenizer.decode(tokens, ignore_repeat)`), and
the metric registry (`eval(metric)` over the names imported from
`.metric`; `none` = unresolvable name, i.e. a NameError). -/
structure Oracles (α β : Type) where
  projector : α → β
  model : List (List β) → List ℕ → List (List (List ℚ)) × List ℕ
  ctcLoss : List (List (List ℚ)) → List (List ℕ) → List ℕ → List ℕ → ℚ
  decode : List ℕ → Bool → String
  metricFn : String → Option (List (List (List ℚ)) → List ℕ → List String → List String → ℚ)

/-- Lines 64, 71-72: `self.model(self.projector(pad_sequence(features)),
features_len)` — the (log_probs, log_probs_len) pair. -/
def modelLogProbs (or' : Oracles α β) (padFrame : α) (features : List (List α)) :
    List (List (List ℚ)) × List ℕ :=
  or'.model ((pad_sequence features padFrame).map (List.map or'.projector))
    (lengthsOf features)

/-- Line 82: `log_probs.argmax(dim=-1)` — one token sequence per utterance,
over the full padded time axis. -/
def predTokens (or' : Oracles α β) (padFrame : α) (features : List (List α)) :
    List (List ℕ) :=
  (modelLogProbs or' padFrame features).1.map (fun row => row.map argmaxIdx)

/-- Line 83: greedy hypothesis texts, decoded with `ignore_repeat=True`. -/
def hypothesisOf (or' : Oracles α β) (padFrame : α) (features : List (List α)) :
    List String :=
  (predTokens or' padFrame features).map (fun h => or'.decode h true)

/-- Line 84: groundtruth texts, decoded (without repeat collapsing) from the
padded label tensor. -/
def groundtruthOf (or' : Oracles α β) (padIdx : ℕ) (labels : List (List ℕ)) :
    List String :=
  (pad_sequence labels padIdx).map (fun g => or'.decode g false)

/-- The four tensors handed to `self.objective` (lines 74-79), before the
`(N, T, C) → (T, N, C)` transpose of the first: log-probabilities, padded
labels, output lengths, and the unpadded label lengths. -/
def forwardCtcInputs (or' : Oracles α β) (padFrame : α) (padIdx : ℕ)
    (features : List (List α)) (labels : List (List ℕ)) :
    List (List (List ℚ)) × List (List ℕ) × List ℕ × List ℕ :=
  ((modelLogProbs or' padFrame features).1, pad_sequence labels padIdx,
    (modelLogProbs or' padFrame features).2, lengthsOf labels)

/-- The metric loop (lines 86-92): appends one value per configured metric
name in order; stops with `false` (a NameError from `eval(metric)`) at the
first unresolvable name, leaving the earlier appends in place. -/
def metricLoop (or' : Oracles α β) (lp : List (List (List ℚ))) (lpl : List ℕ)
    (hyp gt : List String) : List String → Records → Records × Bool
  | [], r => (r, true)
  | m :: rest, r =>
    match or'.metricFn m with
    | none => (r, false)
    | some f => metricLoop or' lp lpl hyp gt rest (appendRec r m (Val.num (f lp lpl hyp gt)))

/-- Outcome of one `forward` call: normal return of the loss, or an uncaught
exception; either way the records accumulator as mutated so far (the caller's
dict is mutated in place, so the mutations survive a raise). -/
inductive FwdOut where
  | ok (records : Records) (loss : ℚ)
  | err (records : Records)
deriving Repr

/-- The records accumulator after the call, whether or not it raised. -/
def FwdOut.recordsOf : FwdOut → Records
  | FwdOut.ok r _ => r
  | FwdOut.err r => r

/-- `true` iff the call returned normally. -/
def FwdOut.isOk : FwdOut → Bool
  | FwdOut.ok _ _ => true
  | FwdOut.err _ => false

/-- `DownstreamExpert.forward` (lines 60-99).  Mirrors the source order:
`features[0].device` (raises on an empty batch), length computation, padding,
projection + model, CTC loss, `records['loss'].append`, greedy decode, the
metric loop, then the first-sample text appends. -/
def forward (st : ExpertState) (or' : Oracles α β) (padFrame : α)
    (features : List (List α)) (labels : List (List ℕ)) (filenames : List String)
    (records : Records) : FwdOut :=
  if features.isEmpty then FwdOut.err records
  else
    let inputs := forwardCtcInputs or' padFrame st.pad_idx features labels
    let log_probs := inputs.1
    let log_probs_len := inputs.2.2.1
    let loss := or'.ctcLoss log_probs.transpose inputs.2.1 log_probs_len inputs.2.2.2
    let records1 := appendRec records "loss" (Val.num loss)
    let hypothesis := hypothesisOf or' padFrame features
    let groundtruth := groundtruthOf or' st.pad_idx labels
    match metricLoop or' log_probs log_probs_len hypothesis groundtruth st.metrics records1 with
    | (records2, false) => FwdOut.err records2
    | (records2, true) =>
      match hypothesis.head? with
      | none => FwdOut.err records2
      | some h0 =>
        let records3 := appendRec records2 "hypothesis" (Val.str h0)
        match groundtruth.head? with
        | none => FwdOut.err records3
        | some g0 =>
          let records4 := appendRec records3 "groundtruth" (Val.str g0)
          match filenames.head? with
          | none => FwdOut.err records4
          | some f0 => FwdOut.ok (appendRec records4 "filename" (Val.str f0)) loss

/-! ### Construction (`__init__`, lines 23-50) -/

/-- An exception escaping `__init__`: the NameError of `eval(model_select)` on
an unknown model name, or the KeyError of a missing configuration sub-key. -/
inductive InitError where
  | nameError
  | keyError
deriving DecidableEq, Repr

/-- The `downstream_expert['model']` sub-dictionary: the statically named keys
as typed fields, and the model-named hyperparameter blocks (`modelrc[select]`)
as a partial map, whose absence raises a KeyError. -/
structure ModelRc (H : Type) where
  project_dim : ℕ
  select : String
  zero_infinity : Bool
  sub : String → Option H

/-- `DownstreamExpert.__init__` (lines 23-50), with the model registry brought
in by `from ..asr.model import *` as an opaque parameter `registry`
(`none` = the name does not resolve, a NameError from `eval`).  Evaluation
order follows the source: `eval(model_select)` resolves the constructor
before its keyword arguments `**modelrc[model_select]` are looked up.
Returns the adapter state (with `best_score` initialised per line 48-50) and
the constructed sequence model. -/
def initExpert {H M : Type} (registry : String → Option (ℕ → ℕ → ℕ → H → M))
    (upstream_rate vocab_size pad_idx : ℕ) (corpus_name : String)
    (eval_dataloaders metrics : List String) (metric_higher_better : Bool)
    (modelrc : ModelRc H) : Except InitError (ExpertState × M) :=
  match registry modelrc.select with
  | none => Except.error InitError.nameError
  | some ctor =>
    match modelrc.sub modelrc.select with
    | none => Except.error InitError.keyError
    | some h =>
      Except.ok
        ({ corpus_name := corpus_name, metrics := metrics,
           metric_higher_better := metric_higher_better,
           eval_dataloaders := eval_dataloaders,
           best_score := if metric_higher_better then 0 else 2147483648,  -- 1 <<< 31
           pad_idx := pad_idx },
         ctor modelrc.project_dim vocab_size upstream_rate h)

/-! ### Concrete instances (used by witnesses and counterexamples) -/

/-- A small adapter state over corpus `x` with evaluation splits `["dev"]`. -/
def wSt (ms : List String) (hb : Bool) (b : ℚ) : ExpertState :=
  { corpus_name := "x", metrics := ms, metric_higher_better := hb,
    eval_dataloaders := ["dev"], best_score := b, pad_idx := 0 }

/-- `n` text values `pre1`, ..., `pre<n>`. -/
def wStrs (pre : String) (n : ℕ) : List Val :=
  (List.range n).map (fun i => Val.str (pre ++ toString (i + 1)))

/-- Text-field records with `n` filenames, hypotheses and groundtruths. -/
def wTxt (n : ℕ) : Records :=
  [("filename", wStrs "a" n), ("hypothesis", wStrs "b" n), ("groundtruth", wStrs "c" n)]

/-- The text logs emitted for `wTxt n` at stride 1, first `m` indices. -/
def wTexts (split : String) (m : ℕ) : List (String × String) :=
  (List.range m).map (fun i =>
    ("ctc-x/" ++ split ++ "-a" ++ toString (i + 1),
     "**hypothesis**: b" ++ toString (i + 1) ++ "<br>**groundtruth**: c" ++ toString (i + 1)))

/-- The text logs emitted for `wTxt n` on split `train` at stride 2: the
samples a1, a3, a5, a7, a9. -/
def wTextsOdd : List (String × String) :=
  (List.range 5).map (fun i =>
    ("ctc-x/train-a" ++ toString (2 * i + 1),
     "**hypothesis**: b" ++ toString (2 * i + 1) ++
       "<br>**groundtruth**: c" ++ toString (2 * i + 1)))

/-- A concrete model registry resolving only the name `RNNs`. -/
def wRegistry : String → Option (ℕ → ℕ → ℕ → Unit → Unit) :=
  fun s => if s == "RNNs" then some (fun _ _ _ _ => ()) else none

/-- A concrete model configuration whose only hyperparameter block is `RNNs`. -/
def wModelRc : ModelRc Unit :=
  { project_dim := 256, select := "RNNs", zero_infinity := true,
    sub := fun s => if s == "RNNs" then some () else none }

/-- Concrete collaborators over `ℚ` frames: identity projector, a model
mapping every frame `q` of every padded utterance to the two class scores
`[q, q + 1]` while passing the length vector through, a constant CTC loss,
and a metric registry resolving only `cer`. -/
def wOr : Oracles ℚ ℚ :=
  { projector := fun q => q
    model := fun x lens => (x.map (fun row => row.map (fun q => [q, q + 1])), lens)
    ctcLoss := fun _ _ _ _ => 7
    decode := fun _ b => if b then "hyp" else "ref"
    metricFn := fun m => if m == "cer" then some (fun _ _ _ _ => 1 / 2) else none }

/-- Trivial collaborators over `Unit` frames. -/
def wOrU : Oracles Unit Unit :=
  { projector := fun _ => ()
    model := fun _ lens => ([], lens)
    ctcLoss := fun _ _ _ _ => 0
    decode := fun _ _ => ""
    metricFn := fun _ => none }

/-! ### Association-list lemmas -/

theorem lookupD_nil (k : String) : lookupD [] k = [] := rfl

theorem lookupD_cons (k' : String) (vs : List Val) (rest : Records) (k : String) :
    lookupD ((k', vs) :: rest) k = if k' == k then vs else lookupD rest k := by
  by_cases h : (k' == k) = true
  · simp [lookupD, List.find?, h]
  · have hb : (k' == k) = false := by simpa using h
    simp [lookupD, List.find?, hb]

theorem lookupD_appendRec_self (r : Records) (k : String) (v : Val) :
    lookupD (appendRec r k v) k = lookupD r k ++ [v] := by
  induction r with
  | nil => simp [appendRec, lookupD, List.find?]
  | cons kv rest ih =>
    obtain ⟨k', vs⟩ := kv
    by_cases h : (k' == k) = true
    · simp [appendRec, h, lookupD_cons]
    · simp only [appendRec, h, Bool.false_eq_true, if_false]
      rw [lookupD_cons, lookupD_cons, if_neg (by simp [h]), if_neg (by simp [h]), ih]

theorem lookupD_appendRec_ne (r : Records) (k k' : String) (v : Val) (hne : k' ≠ k) :
    lookupD (appendRec r k v) k' = lookupD r k' := by
  induction r with
  | nil =>
    rw [show appendRec [] k v = [(k, [v])] from rfl, lookupD_cons,
      if_neg (by simpa using hne.symm)]
  | cons kv rest ih =>
    obtain ⟨k0, vs⟩ := kv
    by_cases h : (k0 == k) = true
    · have hk0 : k0 = k := by simpa using h
      subst hk0
      simp only [appendRec, h, if_true]
      rw [lookupD_cons, lookupD_cons, if_neg (by simpa using hne.symm),
        if_neg (by simpa using hne.symm)]
    · simp only [appendRec, h, Bool.false_eq_true, if_false]
      rw [lookupD_cons, lookupD_cons, ih]

/-! ### Metric-loop lemmas -/

theorem metricLoop_snd_false {α β : Type} (or' : Oracles α β) (lp : List (List (List ℚ)))
    (lpl : List ℕ) (hyp gt : List String) :
    ∀ (ms : List String) (r : Records), (∃ m ∈ ms, or'.metricFn m = none) →
      (metricLoop or' lp lpl hyp gt ms r).2 = false := by
  intro ms
  induction ms with
  | nil => intro r h; simp at h
  | cons m rest ih =>
    intro r h
    rcases h with ⟨m', hm', hnone⟩
    rcases List.mem_cons.mp hm' with he | hmem
    · subst he
      simp [metricLoop, hnone]
    · cases hr : or'.metricFn m with
      | none => simp [metricLoop, hr]
      | some f => simpa [metricLoop, hr] using ih _ ⟨m', hmem, hnone⟩

theorem metricLoop_snd_true {α β : Type} (or' : Oracles α β) (lp : List (List (List ℚ)))
    (lpl : List ℕ) (hyp gt : List String) :
    ∀ (ms : List String) (r : Records), (∀ m ∈ ms, (or'.metricFn m).isSome) →
      (metricLoop or' lp lpl hyp gt ms r).2 = true := by
  intro ms
  induction ms with
  | nil => intro r _; rfl
  | cons m rest ih =>
    intro r h
    have hm := h m (List.mem_cons_self m rest)
    cases hr : or'.metricFn m with
    | none => rw [hr] at hm; simp at hm
    | some f =>
      simpa [metricLoop, hr] using ih _ (fun m' hm' => h m' (List.mem_cons_of_mem _ hm'))

theorem metricLoop_lookupD_not_mem {α β : Type} (or' : Oracles α β)
    (lp : List (List (List ℚ))) (lpl : List ℕ) (hyp gt : List String) :
    ∀ (ms : List String) (r : Records) (k : String), k ∉ ms →
      lookupD (metricLoop or' lp lpl hyp gt ms r).1 k = lookupD r k := by
  intro ms
  induction ms with
  | nil => intro r k _; rfl
  | cons m rest ih =>
    intro r k hk
    have hne : m ≠ k := fun he => hk (he ▸ List.mem_cons_self m rest)
    cases hr : or'.metricFn m with
    | none => simp [metricLoop, hr]
    | some f =>
      simp only [metricLoop, hr]
      rw [ih _ k (fun hmem => hk (List.mem_cons_of_mem _ hmem)),
        lookupD_appendRec_ne _ _ _ _ (Ne.symm hne)]

theorem metricLoop_lookupD_mem {α β : Type} (or' : Oracles α β)
    (lp : List (List (List ℚ))) (lpl : List ℕ) (hyp gt : List String) :
    ∀ (ms : List String) (r : Records) (m : String), ms.Nodup → m ∈ ms →
      (∀ m' ∈ ms, (or'.metricFn m').isSome) →
      (lookupD (metricLoop or' lp lpl hyp gt ms r).1 m).length =
        (lookupD r m).length + 1 := by
  intro ms
  induction ms with
  | nil => intro r m _ hm _; simp at hm
  | cons m0 rest ih =>
    intro r m hnd hm hres
    have h0 := hres m0 (List.mem_cons_self m0 rest)
    cases hr : or'.metricFn m0 with
    | none => rw [hr] at h0; simp at h0
    | some f =>
      simp only [metricLoop, hr]
      rcases List.mem_cons.mp hm with he | hmem
      · subst he
        have hnotin : m ∉ rest := (List.nodup_cons.mp hnd).1
        rw [metricLoop_lookupD_not_mem _ _ _ _ _ _ _ _ hnotin, lookupD_appendRec_self]
        simp
      · have hne : m ≠ m0 := fun he => (List.nodup_cons.mp hnd).1 (he ▸ hmem)
        rw [ih _ m (List.nodup_cons.mp hnd).2 hmem
            (fun m' hm' => hres m' (List.mem_cons_of_mem _ hm')),
          lookupD_appendRec_ne _ _ _ _ hne]

/-! ### Padding lemmas -/

theorem length_le_maxLen {α : Type} (xs : List (List α)) (s : List α) (hs : s ∈ xs) :
    s.length ≤ maxLen xs := by
  induction xs with
  | nil => simp at hs
  | cons x rest ih =>
    rcases List.mem_cons.mp hs with he | hmem
    · subst he
      simp [maxLen, lengthsOf]
    · calc s.length ≤ maxLen rest := ih hmem
        _ ≤ maxLen (x :: rest) := by simp [maxLen, lengthsOf]

theorem lengthsOf_pad_sequence {α : Type} (xs : List (List α)) (pad : α) :
    lengthsOf (pad_sequence xs pad) = List.replicate xs.length (maxLen xs) := by
  simp only [pad_sequence, lengthsOf, List.map_map]
  refine List.map_eq_replicate_iff.mpr ?_
  intro s hs
  have := length_le_maxLen xs s hs
  simp only [Function.comp_apply, List.length_append, List.length_replicate]
  omega

/-! ### Text-loop lemmas -/

theorem collectSome_length {α β : Type} (f : α → Option β) :
    ∀ (l : List α) (l' : List β), collectSome f l = some l' → l'.length = l.length := by
  intro l
  induction l with
  | nil => intro l' h; simp [collectSome] at h; simp [← h]
  | cons a as ih =>
    intro l' h
    simp only [collectSome] at h
    cases hf : f a with
    | none => rw [hf] at h; exact Option.noConfusion h
    | some b =>
      rw [hf] at h
      cases hm : collectSome f as with
      | none => rw [hm] at h; exact Option.noConfusion h
      | some bs =>
        rw [hm] at h
        simp only [Option.some_bind, Option.map_some', Option.some.injEq] at h
        simp [← h, ih bs hm]

theorem collectSome_isSome {α β : Type} (f : α → Option β) :
    ∀ (l : List α), (∀ a ∈ l, (f a).isSome) → (collectSome f l).isSome := by
  intro l
  induction l with
  | nil => intro _; simp [collectSome]
  | cons a as ih =>
    intro h
    have ha := h a (List.mem_cons_self a as)
    cases hf : f a with
    | none => rw [hf] at ha; simp at ha
    | some b =>
      have hrest := ih (fun a' ha' => h a' (List.mem_cons_of_mem _ ha'))
      cases hm : collectSome f as with
      | none => rw [hm] at hrest; simp at hrest
      | some bs => simp [collectSome, hf, hm]

theorem rangeL_lt (n step i : ℕ) (hstep : 0 < step) (hi : i ∈ rangeL n step) : i < n := by
  simp only [rangeL, List.mem_map, List.mem_range] at hi
  obtain ⟨j, hj, he⟩ := hi
  subst he
  have h1 : j + 1 ≤ (n + step - 1) / step := hj
  have h2 : (j + 1) * step ≤ n + step - 1 := (Nat.le_div_iff_mul_le hstep).mp h1
  have h3 : j * step + step ≤ n + step - 1 := by rw [Nat.succ_mul] at h2; omega
  omega

theorem rangeL_length (n step : ℕ) : (rangeL n step).length = (n + step - 1) / step := by
  simp [rangeL]

theorem pyRound5_eq_zero_iff (n : ℕ) : pyRound5 n = 0 ↔ n < 3 := by
  unfold pyRound5
  omega

/-! ### Scalar-loop characterization -/

theorem toFloats_of_str_head (vs : List Val) (h : headIsNumeric vs = some false) :
    toFloats vs = none := by
  match vs with
  | [] => simp [headIsNumeric] at h
  | Val.num q :: rest => simp [headIsNumeric] at h
  | Val.str s :: rest => rfl

theorem lookupRec_cons_self (k m0 : String) (vs : List Val) (rest : Records)
    (h : (k == m0) = true) : lookupRec ((k, vs) :: rest) m0 = some vs := by
  simp [lookupRec, List.find?, h]

theorem lookupRec_cons_ne (k m0 : String) (vs : List Val) (rest : Records)
    (h : (k == m0) = false) : lookupRec ((k, vs) :: rest) m0 = lookupRec rest m0 := by
  simp [lookupRec, List.find?, h]

theorem lookupRec_eq_none (l : Records) (k : String) (h : k ∉ l.map Prod.fst) :
    lookupRec l k = none := by
  simp only [lookupRec, Option.map_eq_none', List.find?_eq_none]
  intro kv hkv
  simp only [beq_iff_eq]
  intro he
  exact h (he ▸ List.mem_map_of_mem Prod.fst hkv)

theorem toFloats_num_head (v : Val) (rest : List Val) (floats : List ℚ)
    (hnum : headIsNumeric (v :: rest) = some true)
    (hfl : toFloats (v :: rest) = some floats) : floats ≠ [] := by
  cases v with
  | str s => simp [headIsNumeric] at hnum
  | num q =>
    simp only [toFloats] at hfl
    cases hr : toFloats rest with
    | none => rw [hr] at hfl; simp at hfl
    | some qs =>
      rw [hr] at hfl
      simp only [Option.map_some', Option.some.injEq] at hfl
      rw [← hfl]
      simp

theorem toFloats_some_nil (vs : List Val) (h : toFloats vs = some []) : vs = [] := by
  cases vs with
  | nil => rfl
  | cons v r =>
    cases v with
    | num q =>
      simp only [toFloats] at h
      cases hr : toFloats r with
      | none => rw [hr] at h; simp at h
      | some qs => rw [hr] at h; simp at h
    | str s => simp [toFloats] at h

theorem entryTrigger_true_elim (st : ExpertState) (split key : String) (values : List Val)
    (b : ℚ) (h : entryTrigger st split key values b = true) :
    st.metrics.head? = some key ∧ ∃ q qs, toFloats values = some (q :: qs) := by
  cases hm : st.metrics.head? with
  | none => simp [entryTrigger, hm] at h
  | some m0 =>
    cases he : st.eval_dataloaders.head? with
    | none => simp [entryTrigger, hm, he] at h
    | some e0 =>
      cases hfl : toFloats values with
      | none => simp [entryTrigger, hm, he, hfl] at h
      | some floats =>
        cases floats with
        | nil => simp [entryTrigger, hm, he, hfl] at h
        | cons q qs =>
          simp only [entryTrigger, hm, he, hfl, Bool.and_eq_true, beq_iff_eq] at h
          constructor
          · rw [h.1]
          · exact ⟨q, qs, rfl⟩

theorem logStep_values_ne_nil (st : ExpertState) (split key : String)
    (acc acc' : List String × ℚ) (h : logStep st split key [] acc = some acc') : False := by
  simp [logStep, headIsNumeric] at h

theorem logStep_spec (st : ExpertState) (split key : String) (values : List Val)
    (acc acc' : List String × ℚ) (h : logStep st split key values acc = some acc') :
    (entryTrigger st split key values acc.2 = true ∧
      acc' = (acc.1 ++ [split ++ "-best.ckpt"], ((toFloats values).map listMean).getD acc.2))
    ∨ (entryTrigger st split key values acc.2 = false ∧ acc' = acc) := by
  cases hnum : headIsNumeric values with
  | none => simp [logStep, hnum] at h
  | some bnum =>
    cases bnum with
    | false =>
      have hfl := toFloats_of_str_head values hnum
      simp only [logStep, hnum, Option.some.injEq] at h
      refine Or.inr ⟨?_, h.symm⟩
      cases hm : st.metrics.head? <;> cases he : st.eval_dataloaders.head? <;>
        simp [entryTrigger, hm, he, hfl]
    | true =>
      cases hfl : toFloats values with
      | none => simp [logStep, hnum, hfl] at h
      | some floats =>
        cases hm : st.metrics.head? with
        | none => simp [logStep, hnum, hfl, hm] at h
        | some m0 =>
          have hne : floats ≠ [] := by
            cases values with
            | nil => simp [headIsNumeric] at hnum
            | cons v r => exact toFloats_num_head v r floats hnum hfl
          obtain ⟨q, qs, rfl⟩ : ∃ q qs, floats = q :: qs := by
            cases floats with
            | nil => exact absurd rfl hne
            | cons q qs => exact ⟨q, qs, rfl⟩
          by_cases hk : (key == m0) = true
          · cases he : st.eval_dataloaders.head? with
            | none => simp [logStep, hnum, hfl, hm, hk, he] at h
            | some e0 =>
              by_cases hcrit :
                  (split == e0 &&
                    save_criterion st.metric_higher_better (listMean (q :: qs)) acc.2) = true
              · refine Or.inl ⟨by simp [entryTrigger, hm, he, hfl, hk, hcrit], ?_⟩
                simp only [logStep, hnum, hfl, hm, hk, if_true, he, hcrit,
                  Option.some.injEq] at h
                simp [← h, hfl]
              · have hcritf : (split == e0 &&
                    save_criterion st.metric_higher_better (listMean (q :: qs)) acc.2)
                      = false := by
                  simpa using hcrit
                refine Or.inr ⟨by simp [entryTrigger, hm, he, hfl, hk, hcritf], ?_⟩
                simp only [logStep, hnum, hfl, hm, hk, if_true, he, hcritf,
                  Bool.false_eq_true, if_false, Option.some.injEq] at h
                exact h.symm
          · have hkf : (key == m0) = false := by simpa using hk
            refine Or.inr ⟨?_, ?_⟩
            · cases he : st.eval_dataloaders.head? <;>
                simp [entryTrigger, hm, he, hfl, hkf]
            · simp only [logStep, hnum, hfl, hm, hkf, Bool.false_eq_true, if_false,
                Option.some.injEq] at h
              exact h.symm

theorem logLoop_keep (st : ExpertState) (split : String) :
    ∀ (l : Records) (acc res : List String × ℚ),
    (∀ kv ∈ l, st.metrics.head? ≠ some kv.1) →
    logLoop st split l acc = some res → res = acc := by
  intro l
  induction l with
  | nil =>
    intro acc res _ h
    simp only [logLoop, Option.some.injEq] at h
    exact h.symm
  | cons kv rest ih =>
    intro acc res hkeys h
    obtain ⟨k, vs⟩ := kv
    simp only [logLoop] at h
    cases hstep : logStep st split k vs acc with
    | none => rw [hstep] at h; exact Option.noConfusion h
    | some acc1 =>
      rw [hstep] at h
      simp only [Option.some_bind] at h
      have hacc1 : acc1 = acc := by
        rcases logStep_spec st split k vs acc acc1 hstep with ⟨htr, _⟩ | ⟨_, he⟩
        · exact absurd (entryTrigger_true_elim st split k vs acc.2 htr).1
            (hkeys (k, vs) (List.mem_cons_self _ _))
        · exact he
      rw [hacc1] at h
      exact ih acc res (fun kv hkv => hkeys kv (List.mem_cons_of_mem _ hkv)) h

theorem bestUpdateCond_nil (st : ExpertState) (split : String) (b : ℚ) :
    bestUpdateCond st split [] b = false := by
  cases hm : st.metrics.head? <;> cases he : st.eval_dataloaders.head? <;>
    simp [bestUpdateCond, hm, he, lookupRec]

theorem bestUpdateCond_cons_self (st : ExpertState) (split k : String) (vs : List Val)
    (rest : Records) (b : ℚ) (m0 : String) (hm : st.metrics.head? = some m0)
    (hk : (k == m0) = true) (hv : vs ≠ []) :
    bestUpdateCond st split ((k, vs) :: rest) b = entryTrigger st split k vs b := by
  cases he : st.eval_dataloaders.head? with
  | none => simp [bestUpdateCond, entryTrigger, hm, he]
  | some e0 =>
    cases hfl : toFloats vs with
    | none => simp [bestUpdateCond, entryTrigger, hm, he, hfl, lookupRec_cons_self _ _ _ _ hk]
    | some floats =>
      cases floats with
      | nil => exact absurd (toFloats_some_nil vs hfl) hv
      | cons q qs =>
        simp [bestUpdateCond, entryTrigger, hm, he, hfl, lookupRec_cons_self _ _ _ _ hk, hk]

theorem bestUpdateCond_cons_ne (st : ExpertState) (split k : String) (vs : List Val)
    (rest : Records) (b : ℚ) (m0 : String) (hm : st.metrics.head? = some m0)
    (hk : (k == m0) = false) :
    bestUpdateCond st split ((k, vs) :: rest) b = bestUpdateCond st split rest b := by
  cases he : st.eval_dataloaders.head? <;>
    simp [bestUpdateCond, hm, he, lookupRec_cons_ne _ _ _ _ hk]

theorem bestUpdateCond_metrics_none (st : ExpertState) (split : String) (l : Records)
    (b : ℚ) (hm : st.metrics.head? = none) : bestUpdateCond st split l b = false := by
  simp [bestUpdateCond, hm]

theorem primaryMean_cons_self (st : ExpertState) (k : String) (vs : List Val)
    (rest : Records) (m0 : String) (hm : st.metrics.head? = some m0)
    (hk : (k == m0) = true) :
    primaryMean st ((k, vs) :: rest) = (toFloats vs).map listMean := by
  simp [primaryMean, hm, lookupRec_cons_self _ _ _ _ hk]

theorem primaryMean_cons_ne (st : ExpertState) (k : String) (vs : List Val)
    (rest : Records) (m0 : String) (hm : st.metrics.head? = some m0)
    (hk : (k == m0) = false) :
    primaryMean st ((k, vs) :: rest) = primaryMean st rest := by
  simp [primaryMean, hm, lookupRec_cons_ne _ _ _ _ hk]

theorem logLoop_char (st : ExpertState) (split : String) :
    ∀ (l : Records) (saves : List String) (b : ℚ) (res : List String × ℚ),
    (l.map Prod.fst).Nodup →
    logLoop st split l (saves, b) = some res →
    (bestUpdateCond st split l b = true →
      res = (saves ++ [split ++ "-best.ckpt"], (primaryMean st l).getD b))
    ∧ (bestUpdateCond st split l b = false → res = (saves, b)) := by
  intro l
  induction l with
  | nil =>
    intro saves b res _ h
    simp only [logLoop, Option.some.injEq] at h
    refine ⟨fun hc => ?_, fun _ => h.symm⟩
    rw [bestUpdateCond_nil] at hc
    exact Bool.noConfusion hc
  | cons kv rest ih =>
    intro saves b res hnd h
    obtain ⟨k, vs⟩ := kv
    have hnd2 : (rest.map Prod.fst).Nodup := (List.nodup_cons.mp (by simpa using hnd)).2
    have hknotin : k ∉ rest.map Prod.fst := (List.nodup_cons.mp (by simpa using hnd)).1
    simp only [logLoop] at h
    cases hstep : logStep st split k vs (saves, b) with
    | none => rw [hstep] at h; exact Option.noConfusion h
    | some acc1 =>
      rw [hstep] at h
      simp only [Option.some_bind] at h
      have hvne : vs ≠ [] := by
        intro hemp
        subst hemp
        exact logStep_values_ne_nil st split k (saves, b) acc1 hstep
      rcases logStep_spec st split k vs (saves, b) acc1 hstep with ⟨htr, hval⟩ | ⟨htr, hval⟩
      · -- the head entry triggered the save
        obtain ⟨hm, q, qs, hfl⟩ := entryTrigger_true_elim st split k vs b htr
        have hkk : (k == k) = true := by simp
        have hres : res = acc1 := by
          refine logLoop_keep st split rest acc1 res (fun kv hkv => ?_) h
          rw [hm]
          simp only [ne_eq, Option.some.injEq]
          intro he
          exact hknotin (he ▸ List.mem_map_of_mem Prod.fst hkv)
        have hcond : bestUpdateCond st split ((k, vs) :: rest) b = true := by
          rw [bestUpdateCond_cons_self st split k vs rest b k hm hkk hvne]
          exact htr
        have hpm := primaryMean_cons_self st k vs rest k hm hkk
        refine ⟨fun _ => ?_, fun hc => ?_⟩
        · rw [hres, hval, hpm]
        · rw [hcond] at hc
          exact Bool.noConfusion hc
      · -- the head entry did not trigger; the accumulator is unchanged
        subst hval
        cases hm : st.metrics.head? with
        | none =>
          have hc1 := bestUpdateCond_metrics_none st split ((k, vs) :: rest) b hm
          have hc2 := bestUpdateCond_metrics_none st split rest b hm
          have := (ih saves b res hnd2 h).2 hc2
          exact ⟨fun hc => by rw [hc1] at hc; exact Bool.noConfusion hc, fun _ => this⟩
        | some m0 =>
          by_cases hk : (k == m0) = true
          · -- the head entry is the primary metric but did not trigger;
            -- the tail cannot hold the primary metric again
            have hc1 : bestUpdateCond st split ((k, vs) :: rest) b = false := by
              rw [bestUpdateCond_cons_self st split k vs rest b m0 hm hk hvne]
              rw [show k = m0 from by simpa using hk] at htr ⊢
              exact htr
            have hkeq : k = m0 := by simpa using hk
            have hc2 : bestUpdateCond st split rest b = false := by
              have : lookupRec rest m0 = none :=
                lookupRec_eq_none rest m0 (hkeq ▸ hknotin)
              cases he : st.eval_dataloaders.head? <;>
                simp [bestUpdateCond, hm, he, this]
            have := (ih saves b res hnd2 h).2 hc2
            exact ⟨fun hc => by rw [hc1] at hc; exact Bool.noConfusion hc, fun _ => this⟩
          · have hkf : (k == m0) = false := by simpa using hk
            have hc := bestUpdateCond_cons_ne st split k vs rest b m0 hm hkf
            have hpm := primaryMean_cons_ne st k vs rest m0 hm hkf
            have hih := ih saves b res hnd2 h
            rw [hc, hpm]
            exact hih

/-- Characterization of one `log_records` call: the save condition of
lines 114-116 decides both the returned `save_names` and the `best_score`
update. -/
theorem log_records_spec (st : ExpertState) (split : String) (records : Records)
    (res : LogResult) (hnd : (records.map Prod.fst).Nodup)
    (h : log_records st split records = some res) :
    (bestUpdateCond st split records st.best_score = true →
      res.save_names = [split ++ "-best.ckpt"] ∧
      res.best_score = (primaryMean st records).getD st.best_score)
    ∧ (bestUpdateCond st split records st.best_score = false →
      res.save_names = [] ∧ res.best_score = st.best_score) := by
  unfold log_records at h
  cases hl : logLoop st split records ([], st.best_score) with
  | none => rw [hl] at h; exact Option.noConfusion h
  | some p =>
    obtain ⟨saves, best⟩ := p
    rw [hl] at h
    cases ht : textLogs (get_task_name st) split records with
    | none => rw [ht] at h; exact Option.noConfusion h
    | some texts =>
      rw [ht] at h
      simp only [Option.some.injEq] at h
      have hchar := logLoop_char st split records [] st.best_score (saves, best) hnd hl
      subst h
      refine ⟨fun hc => ?_, fun hc => ?_⟩
      · have := hchar.1 hc
        simp only [Prod.mk.injEq, List.nil_append] at this
        exact ⟨this.1, this.2⟩
      · have := hchar.2 hc
        simp only [Prod.mk.injEq] at this
        exact ⟨this.1, this.2⟩

/-! ### Text-loop facts about `log_records` -/

theorem log_records_texts (st : ExpertState) (split : String) (records : Records)
    (res : LogResult) (h : log_records st split records = some res) :
    textLogs (get_task_name st) split records = some res.texts := by
  unfold log_records at h
  cases hl : logLoop st split records ([], st.best_score) with
  | none => rw [hl] at h; exact Option.noConfusion h
  | some p =>
    obtain ⟨saves, best⟩ := p
    rw [hl] at h
    cases ht : textLogs (get_task_name st) split records with
    | none => rw [ht] at h; exact Option.noConfusion h
    | some texts =>
      rw [ht] at h
      cases h
      rfl

theorem textLogs_length (tn split : String) (records : Records)
    (texts : List (String × String)) (h : textLogs tn split records = some texts) :
    texts.length =
      ((lookupD records "filename").length + pyRound5 (lookupD records "filename").length - 1) /
        pyRound5 (lookupD records "filename").length := by
  simp only [textLogs] at h
  by_cases hz : pyRound5 (lookupD records "filename").length = 0
  · rw [if_pos hz] at h
    exact Option.noConfusion h
  · rw [if_neg hz] at h
    rw [collectSome_length _ _ _ h, rangeL_length]

theorem textLogs_isSome (tn split : String) (records : Records)
    (hstep : pyRound5 (lookupD records "filename").length ≠ 0)
    (hhyp : (lookupD records "filename").length ≤ (lookupD records "hypothesis").length)
    (hgt : (lookupD records "filename").length ≤ (lookupD records "groundtruth").length) :
    (textLogs tn split records).isSome := by
  simp only [textLogs]
  rw [if_neg hstep]
  apply collectSome_isSome
  intro i hi
  have hin : i < (lookupD records "filename").length :=
    rangeL_lt _ _ i (Nat.pos_of_ne_zero hstep) hi
  cases hf : (lookupD records "filename").get? i with
  | none =>
    have := List.get?_eq_none.mp hf
    omega
  | some f =>
    cases hh : (lookupD records "hypothesis").get? i with
    | none =>
      have := List.get?_eq_none.mp hh
      omega
    | some hy =>
      cases hg : (lookupD records "groundtruth").get? i with
      | none =>
        have := List.get?_eq_none.mp hg
        omega
      | some g => simp [hf, hh, hg]

/-! ### Claim C1 -/

/-- C1: a `log_records` call that returns updates the best score only when
the primary metric (`metrics[0]`) is among the averaged record keys, the
split is the first configured evaluation split, and the new mean beats the
stored best in the configured direction (strictly greater when
`metric_higher_better`, strictly less otherwise); in exactly that case the
returned list of checkpoint labels is the single entry `<split>-best.ckpt`,
otherwise it is empty, so it never has more than one entry. -/
theorem log_records_save_iff (st : ExpertState) (split : String) (records : Records)
    (res : LogResult) (hnd : (records.map Prod.fst).Nodup)
    (h : log_records st split records = some res) :
    (res.save_names =
      if bestUpdateCond st split records st.best_score then [split ++ "-best.ckpt"] else [])
    ∧ (res.best_score ≠ st.best_score → bestUpdateCond st split records st.best_score = true)
    ∧ res.save_names.length ≤ 1 := by
  have hs := log_records_spec st split records res hnd h
  by_cases hc : bestUpdateCond st split records st.best_score = true
  · obtain ⟨h1, _⟩ := hs.1 hc
    refine ⟨by rw [hc, if_pos rfl, h1], fun _ => hc, by rw [h1]; exact Nat.le_refl 1⟩
  · have hcf : bestUpdateCond st split records st.best_score = false := by
      simpa using hc
    obtain ⟨h1, h2⟩ := hs.2 hcf
    refine ⟨?_, fun hne => absurd h2 hne, by rw [h1]; exact Nat.zero_le 1⟩
    rw [hcf, h1]
    simp

/-- Witness for C1 at a concrete input: the primary metric `cer` is recorded
with mean 1 on split `dev`, which beats the stored best 0, so the single
label `dev-best.ckpt` is returned. -/
theorem log_records_save_iff_witness :
    (((("loss", [Val.num 2]) :: ("cer", [Val.num 1]) :: wTxt 3 : Records).map Prod.fst).Nodup
      ∧ log_records (wSt ["cer"] true 0) "dev"
          (("loss", [Val.num 2]) :: ("cer", [Val.num 1]) :: wTxt 3) =
        some ⟨["dev-best.ckpt"], 1, wTexts "dev" 3⟩)
    ∧ ((LogResult.mk ["dev-best.ckpt"] 1 (wTexts "dev" 3)).save_names =
        if bestUpdateCond (wSt ["cer"] true 0) "dev"
            (("loss", [Val.num 2]) :: ("cer", [Val.num 1]) :: wTxt 3)
            (wSt ["cer"] true 0).best_score then ["dev" ++ "-best.ckpt"] else [])
      ∧ ((LogResult.mk ["dev-best.ckpt"] 1 (wTexts "dev" 3)).best_score ≠
            (wSt ["cer"] true 0).best_score →
          bestUpdateCond (wSt ["cer"] true 0) "dev"
            (("loss", [Val.num 2]) :: ("cer", [Val.num 1]) :: wTxt 3)
            (wSt ["cer"] true 0).best_score = true)
      ∧ (LogResult.mk ["dev-best.ckpt"] 1 (wTexts "dev" 3)).save_names.length ≤ 1 :=
  ⟨⟨by decide, by with_unfolding_all decide⟩,
    log_records_save_iff (wSt ["cer"] true 0) "dev"
      (("loss", [Val.num 2]) :: ("cer", [Val.num 1]) :: wTxt 3)
      ⟨["dev-best.ckpt"], 1, wTexts "dev" 3⟩ (by decide) (by with_unfolding_all decide)⟩

/-! ### Claim C2 -/

set_option maxRecDepth 2000 in
/-- C2 counterexample: with `metric_higher_better=False` the best score is
initialised to `1 << 31 = 2147483648`, which is finite; a first evaluation
mean equal to that (finite) value on the first evaluation split does *not*
trigger a save, refuting "any finite first evaluation mean triggers a
save". -/
theorem best_score_finite_mean_no_save_cex :
    (initExpert wRegistry 160 31 0 "x" ["dev"] ["wer"] false wModelRc).toOption.map
        (fun p => p.1) = some (wSt ["wer"] false 2147483648)
    ∧ (log_records (wSt ["wer"] false 2147483648) "dev"
        (("wer", [Val.num 2147483648]) :: wTxt 3)).map LogResult.save_names = some [] := by
  constructor
  · rfl
  · have h1 : listMean [(2147483648 : ℚ)] = 2147483648 := by simp [listMean]
    have hstep1 : logStep (wSt ["wer"] false 2147483648) "dev" "wer"
        [Val.num 2147483648] ([], 2147483648) = some ([], 2147483648) := by
      simp [logStep, headIsNumeric, toFloats, save_criterion, h1, wSt]
    have hloop2 : logLoop (wSt ["wer"] false 2147483648) "dev" (wTxt 3)
        ([], 2147483648) = some ([], 2147483648) := by
      simp [wTxt, wStrs, List.range_succ, logLoop, logStep, headIsNumeric]
    have hl : logLoop (wSt ["wer"] false 2147483648) "dev"
        (("wer", [Val.num 2147483648]) :: wTxt 3) ([], 2147483648) =
        some ([], 2147483648) := by
      rw [logLoop, hstep1]
      simpa using hloop2
    have ht : textLogs (get_task_name (wSt ["wer"] false 2147483648)) "dev"
        (("wer", [Val.num 2147483648]) :: wTxt 3) = some (wTexts "dev" 3) := by
      decide
    simp only [log_records]
    rw [show (wSt ["wer"] false 2147483648).best_score = 2147483648 from rfl, hl, ht]
    rfl

/-- C2 (amended): at construction the best score is initialised to 0 when
`metric_higher_better` and to `1 << 31 = 2147483648` otherwise; with
`metric_higher_better=False` and best score still `2147483648`, any first
evaluation mean strictly below `2147483648` on the first configured
evaluation split triggers a save. -/
theorem best_score_init_spec :
    (∀ (H M : Type) (registry : String → Option (ℕ → ℕ → ℕ → H → M))
      (ur vsz pidx : ℕ) (cn : String) (evals ms : List String) (hb : Bool)
      (mrc : ModelRc H) (st : ExpertState) (mdl : M),
      initExpert registry ur vsz pidx cn evals ms hb mrc = Except.ok (st, mdl) →
      st.best_score = if hb then 0 else 2147483648)
    ∧ (∀ (st : ExpertState) (split : String) (records : Records) (res : LogResult) (μ : ℚ),
      st.metric_higher_better = false →
      st.best_score = 2147483648 →
      (records.map Prod.fst).Nodup →
      primaryMean st records = some μ →
      μ < 2147483648 →
      st.eval_dataloaders.head? = some split →
      log_records st split records = some res →
      res.save_names = [split ++ "-best.ckpt"]) := by
  constructor
  · intro H M registry ur vsz pidx cn evals ms hb mrc st mdl h
    unfold initExpert at h
    cases hreg : registry mrc.select with
    | none => rw [hreg] at h; exact Except.noConfusion h
    | some ctor =>
      rw [hreg] at h
      cases hsub : mrc.sub mrc.select with
      | none => rw [hsub] at h; exact Except.noConfusion h
      | some hp =>
        rw [hsub] at h
        simp only [Except.ok.injEq, Prod.mk.injEq] at h
        rw [← h.1]
  · intro st split records res μ hhb hbs hnd hpm hlt hev h
    have hcond : bestUpdateCond st split records st.best_score = true := by
      unfold primaryMean at hpm
      cases hm : st.metrics.head? with
      | none => simp only [hm] at hpm; exact Option.noConfusion hpm
      | some m0 =>
        simp only [hm] at hpm
        cases hlr : lookupRec records m0 with
        | none => simp only [hlr] at hpm; exact Option.noConfusion hpm
        | some values =>
          simp only [hlr] at hpm
          cases hfl : toFloats values with
          | none => simp only [hfl] at hpm; exact Option.noConfusion hpm
          | some floats =>
            simp only [hfl] at hpm
            simp only [Option.map_some', Option.some.injEq] at hpm
            simp only [bestUpdateCond, hm, hev, hlr, hfl]
            simp only [beq_self_eq_true, Bool.true_and]
            rw [save_criterion, hhb, hbs, hpm]
            simp only [Bool.false_eq_true, if_false]
            exact decide_eq_true hlt
    exact ((log_records_spec st split records res hnd h).1 hcond).1

set_option maxRecDepth 2000 in
/-- Witness for C2: both parts applied at a concrete construction and a
concrete first evaluation with mean 7 < `2147483648`. -/
theorem best_score_init_spec_witness :
    (initExpert wRegistry 160 31 0 "x" ["dev"] ["wer"] false wModelRc =
        Except.ok (wSt ["wer"] false 2147483648, ())
      ∧ (wSt ["wer"] false 2147483648).best_score = if false then 0 else 2147483648)
    ∧ ((wSt ["wer"] false 2147483648).metric_higher_better = false
      ∧ (wSt ["wer"] false 2147483648).best_score = 2147483648
      ∧ (((("wer", [Val.num 7]) :: wTxt 3 : Records).map Prod.fst).Nodup)
      ∧ primaryMean (wSt ["wer"] false 2147483648) (("wer", [Val.num 7]) :: wTxt 3) = some 7
      ∧ (7 : ℚ) < 2147483648
      ∧ (wSt ["wer"] false 2147483648).eval_dataloaders.head? = some "dev"
      ∧ log_records (wSt ["wer"] false 2147483648) "dev" (("wer", [Val.num 7]) :: wTxt 3) =
          some ⟨["dev-best.ckpt"], 7, wTexts "dev" 3⟩
      ∧ (LogResult.mk ["dev-best.ckpt"] 7 (wTexts "dev" 3)).save_names =
          ["dev" ++ "-best.ckpt"]) :=
  ⟨⟨rfl, rfl⟩,
    rfl, rfl, by decide, by with_unfolding_all decide, by decide, rfl,
    by with_unfolding_all decide,
    best_score_init_spec.2 (wSt ["wer"] false 2147483648) "dev"
      (("wer", [Val.num 7]) :: wTxt 3) ⟨["dev-best.ckpt"], 7, wTexts "dev" 3⟩ 7
      rfl rfl (by decide) (by with_unfolding_all decide) (by decide) rfl
      (by with_unfolding_all decide)⟩

/-! ### Claim C3 -/

/-- C3: with `metric_higher_better=True` and best score 0, a first
`log_records` call on the first evaluation split with primary-metric mean
0.75 returns the label `dev-best.ckpt` and sets the best score to 0.75; a
subsequent call on the same split with mean 0.60 returns no label and leaves
the best score at 0.75. -/
theorem log_records_sequential_example :
    (log_records (wSt ["cer"] true 0) "dev" (("cer", [Val.num (3 / 4)]) :: wTxt 3)).map
        (fun r => (r.save_names, r.best_score)) = some (["dev-best.ckpt"], 3 / 4)
    ∧ (log_records (wSt ["cer"] true (3 / 4)) "dev" (("cer", [Val.num (3 / 5)]) :: wTxt 3)).map
        (fun r => (r.save_names, r.best_score)) = some ([], 3 / 4) := by
  constructor
  · with_unfolding_all decide
  · with_unfolding_all decide

/-! ### Claim C8 -/

/-- C8: adapter construction fails with the (NameError) lookup failure of
`eval(model_select)` exactly when the configured model name is not in the
registry; it fails with a KeyError exactly when the name resolves but the
hyperparameter block named after the selected model is absent; and it
succeeds exactly when both are present. -/
theorem initExpert_failure_spec {H M : Type}
    (registry : String → Option (ℕ → ℕ → ℕ → H → M))
    (ur vsz pidx : ℕ) (cn : String) (evals ms : List String) (hb : Bool)
    (mrc : ModelRc H) :
    (initExpert registry ur vsz pidx cn evals ms hb mrc = Except.error InitError.nameError ↔
      registry mrc.select = none)
    ∧ (initExpert registry ur vsz pidx cn evals ms hb mrc = Except.error InitError.keyError ↔
      ((registry mrc.select).isSome ∧ mrc.sub mrc.select = none))
    ∧ ((∃ r, initExpert registry ur vsz pidx cn evals ms hb mrc = Except.ok r) ↔
      ((registry mrc.select).isSome ∧ (mrc.sub mrc.select).isSome)) := by
  cases hreg : registry mrc.select with
  | none => simp [initExpert, hreg]
  | some ctor =>
    cases hsub : mrc.sub mrc.select with
    | none => simp [initExpert, hreg, hsub]
    | some hp => simp [initExpert, hreg, hsub]

/-! ### Claim C6 -/

/-- C6 counterexample: with 7 accumulated samples the stride is
`round(7 / 5) = 1` and `log_records` emits 7 text entries, not 5. -/
theorem log_records_text_count_cex :
    (log_records (wSt ["cer"] true 0) "train" (wTxt 7)).map (fun r => r.texts.length) =
      some 7 := by
  with_unfolding_all decide

/-- C6 (corrected): a `log_records` call that returns emits
`⌈n / round(n / 5)⌉` text entries pairing filename, hypothesis and
groundtruth, where `n` is the accumulated sample count and the stride is
`round(n / 5)`; this equals 5 whenever `n` is a positive multiple of 5,
though not only then (`n = 9` also emits 5), while e.g. `n = 7` emits 7
entries and `n = 8` emits 4. -/
theorem log_records_text_count (st : ExpertState) (split : String) (records : Records)
    (res : LogResult) (h : log_records st split records = some res) :
    res.texts.length =
      ((lookupD records "filename").length + pyRound5 (lookupD records "filename").length - 1) /
        pyRound5 (lookupD records "filename").length
    ∧ ((lookupD records "filename").length % 5 = 0 → 5 ≤ (lookupD records "filename").length →
        res.texts.length = 5) := by
  have ht := log_records_texts st split records res h
  have hlen := textLogs_length _ _ _ _ ht
  refine ⟨hlen, fun hmod h5 => ?_⟩
  rw [hlen]
  obtain ⟨k, hk⟩ : ∃ k, (lookupD records "filename").length = 5 * k :=
    ⟨(lookupD records "filename").length / 5, by omega⟩
  have hk1 : 1 ≤ k := by omega
  have hpr : pyRound5 (5 * k) = k := by unfold pyRound5; omega
  rw [hk, hpr]
  have he : 5 * k + k - 1 = (k - 1) + k * 5 := by omega
  rw [he, Nat.add_mul_div_left _ _ (by omega : 0 < k), Nat.div_eq_of_lt (by omega)]

/-- Witness for C6: 10 accumulated samples (a positive multiple of 5) give
stride 2 and exactly 5 text entries; 9 samples — not a multiple of 5 — also
give stride 2 and exactly 5 entries, so 5 entries are emitted for positive
multiples of 5 but not only for them. -/
theorem log_records_text_count_witness :
    ((log_records (wSt ["cer"] true 0) "train" (wTxt 10) = some ⟨[], 0, wTextsOdd⟩)
      ∧ ((LogResult.mk [] 0 wTextsOdd).texts.length =
          ((lookupD (wTxt 10) "filename").length +
              pyRound5 (lookupD (wTxt 10) "filename").length - 1) /
            pyRound5 (lookupD (wTxt 10) "filename").length
        ∧ ((lookupD (wTxt 10) "filename").length % 5 = 0 →
            5 ≤ (lookupD (wTxt 10) "filename").length →
            (LogResult.mk [] 0 wTextsOdd).texts.length = 5)))
    ∧ ((log_records (wSt ["cer"] true 0) "train" (wTxt 9) = some ⟨[], 0, wTextsOdd⟩)
      ∧ (LogResult.mk [] 0 wTextsOdd).texts.length = 5
      ∧ ¬ (lookupD (wTxt 9) "filename").length % 5 = 0
      ∧ ((LogResult.mk [] 0 wTextsOdd).texts.length =
          ((lookupD (wTxt 9) "filename").length +
              pyRound5 (lookupD (wTxt 9) "filename").length - 1) /
            pyRound5 (lookupD (wTxt 9) "filename").length)) :=
  ⟨⟨by with_unfolding_all decide,
    log_records_text_count (wSt ["cer"] true 0) "train" (wTxt 10) ⟨[], 0, wTextsOdd⟩
      (by with_unfolding_all decide)⟩,
   ⟨by with_unfolding_all decide, by decide, by decide,
    (log_records_text_count (wSt ["cer"] true 0) "train" (wTxt 9) ⟨[], 0, wTextsOdd⟩
      (by with_unfolding_all decide)).1⟩⟩

/-! ### Claim C7 -/

/-- C7 counterexample: a records accumulator with only 3 samples — below 5 —
does *not* make `log_records` fail: the stride `round(3 / 5) = 1` is
nonzero, refuting "the error branch is reachable exactly for counts below
5". -/
theorem log_records_small_count_ok_cex :
    (log_records (wSt ["cer"] true 0) "train" (wTxt 3)).isSome = true
    ∧ (lookupD (wTxt 3) "filename").length < 5 := by
  constructor
  · with_unfolding_all decide
  · decide

/-- C7 (corrected): with aligned text fields and a scalar loop that
completes, `log_records` raises (zero `range` step, a ValueError) exactly
when the accumulated sample count is below 3: `round(n / 5) = 0` iff
`n ≤ 2`, so counts 3 and 4 — although below 5 — succeed. -/
theorem log_records_stride_error_iff (st : ExpertState) (split : String)
    (records : Records) (p : List String × ℚ)
    (hhyp : (lookupD records "filename").length ≤ (lookupD records "hypothesis").length)
    (hgt : (lookupD records "filename").length ≤ (lookupD records "groundtruth").length)
    (hscalar : logLoop st split records ([], st.best_score) = some p) :
    (log_records st split records = none ↔ (lookupD records "filename").length < 3) := by
  obtain ⟨saves, best⟩ := p
  constructor
  · intro hnone
    by_contra hge
    have hstep : pyRound5 (lookupD records "filename").length ≠ 0 := by
      rw [Ne, pyRound5_eq_zero_iff]
      omega
    obtain ⟨texts, htex⟩ := Option.isSome_iff_exists.mp
      (textLogs_isSome (get_task_name st) split records hstep hhyp hgt)
    unfold log_records at hnone
    rw [hscalar, htex] at hnone
    simp at hnone
  · intro hlt
    have hstep : pyRound5 (lookupD records "filename").length = 0 :=
      (pyRound5_eq_zero_iff _).mpr hlt
    have htl : textLogs (get_task_name st) split records = none := by
      simp only [textLogs]
      rw [if_pos hstep]
    unfold log_records
    rw [hscalar, htl]

/-- Witness for C7: 2 accumulated samples, scalar loop completes, and the
call indeed raises (2 < 3). -/
theorem log_records_stride_error_iff_witness :
    ((lookupD (wTxt 2) "filename").length ≤ (lookupD (wTxt 2) "hypothesis").length
      ∧ (lookupD (wTxt 2) "filename").length ≤ (lookupD (wTxt 2) "groundtruth").length
      ∧ logLoop (wSt ["cer"] true 0) "train" (wTxt 2)
          ([], (wSt ["cer"] true 0).best_score) = some ([], 0))
    ∧ (log_records (wSt ["cer"] true 0) "train" (wTxt 2) = none ↔
        (lookupD (wTxt 2) "filename").length < 3) :=
  ⟨⟨by decide, by decide, by with_unfolding_all decide⟩,
    log_records_stride_error_iff (wSt ["cer"] true 0) "train" (wTxt 2) ([], 0)
      (by decide) (by decide) (by with_unfolding_all decide)⟩

/-! ### Forward-step facts -/

theorem forwardCtcInputs_fst {α β : Type} (or' : Oracles α β) (padFrame : α) (padIdx : ℕ)
    (features : List (List α)) (labels : List (List ℕ)) :
    (forwardCtcInputs or' padFrame padIdx features labels).1 =
      (modelLogProbs or' padFrame features).1 := rfl

theorem forwardCtcInputs_len {α β : Type} (or' : Oracles α β) (padFrame : α) (padIdx : ℕ)
    (features : List (List α)) (labels : List (List ℕ)) :
    (forwardCtcInputs or' padFrame padIdx features labels).2.2.1 =
      (modelLogProbs or' padFrame features).2 := rfl

theorem hypothesisOf_head {α β : Type} (or' : Oracles α β) (padFrame : α)
    (features : List (List α)) (hrows : (modelLogProbs or' padFrame features).1 ≠ []) :
    ∃ h0, (hypothesisOf or' padFrame features).head? = some h0 := by
  cases hcase : (modelLogProbs or' padFrame features).1 with
  | nil => exact absurd hcase hrows
  | cons r rs =>
    refine ⟨or'.decode (List.map argmaxIdx r) true, ?_⟩
    simp [hypothesisOf, predTokens, hcase]

theorem groundtruthOf_head {α β : Type} (or' : Oracles α β) (padIdx : ℕ)
    (labels : List (List ℕ)) (hlab : labels ≠ []) :
    ∃ g0, (groundtruthOf or' padIdx labels).head? = some g0 := by
  cases labels with
  | nil => exact absurd rfl hlab
  | cons l ls =>
    refine ⟨or'.decode (l ++ List.replicate (maxLen (l :: ls) - l.length) padIdx) false, ?_⟩
    simp [groundtruthOf, pad_sequence]

/-! ### Claim C4 -/

/-- C4: for a nonempty batch whose model output has at least one row, with
all configured metric names resolvable, distinct, and distinct from the four
fixed record fields, `forward` returns normally and appends exactly one
value to `records['loss']`, exactly one value to `records[m]` for every
configured metric `m`, and exactly one entry each — the first utterance's —
to `records['hypothesis']`, `records['groundtruth']` and
`records['filename']`; every other key of the accumulator is unchanged. -/
theorem forward_appends_once {α β : Type} (st : ExpertState) (or' : Oracles α β)
    (padFrame : α) (features : List (List α)) (labels : List (List ℕ))
    (filenames : List String) (records : Records)
    (hfeat : features ≠ [])
    (hrows : (modelLogProbs or' padFrame features).1 ≠ [])
    (hlab : labels ≠ [])
    (hfn : filenames ≠ [])
    (hres : ∀ m ∈ st.metrics, (or'.metricFn m).isSome)
    (hnd : st.metrics.Nodup)
    (hdisj : ∀ m ∈ st.metrics,
      m ≠ "loss" ∧ m ≠ "hypothesis" ∧ m ≠ "groundtruth" ∧ m ≠ "filename") :
    (forward st or' padFrame features labels filenames records).isOk = true
    ∧ (lookupD (forward st or' padFrame features labels filenames records).recordsOf
        "loss").length = (lookupD records "loss").length + 1
    ∧ (∀ m ∈ st.metrics,
        (lookupD (forward st or' padFrame features labels filenames records).recordsOf
          m).length = (lookupD records m).length + 1)
    ∧ (∃ h0, (hypothesisOf or' padFrame features).head? = some h0 ∧
        lookupD (forward st or' padFrame features labels filenames records).recordsOf
          "hypothesis" = lookupD records "hypothesis" ++ [Val.str h0])
    ∧ (∃ g0, (groundtruthOf or' st.pad_idx labels).head? = some g0 ∧
        lookupD (forward st or' padFrame features labels filenames records).recordsOf
          "groundtruth" = lookupD records "groundtruth" ++ [Val.str g0])
    ∧ (∃ f0, filenames.head? = some f0 ∧
        lookupD (forward st or' padFrame features labels filenames records).recordsOf
          "filename" = lookupD records "filename" ++ [Val.str f0])
    ∧ (∀ k, k ≠ "loss" → k ≠ "hypothesis" → k ≠ "groundtruth" → k ≠ "filename" →
        k ∉ st.metrics →
        lookupD (forward st or' padFrame features labels filenames records).recordsOf k =
          lookupD records k) := by
  have hie : features.isEmpty = false := by
    cases features with
    | nil => exact absurd rfl hfeat
    | cons f fs => rfl
  obtain ⟨h0, hh0⟩ := hypothesisOf_head or' padFrame features hrows
  obtain ⟨g0, hg0⟩ := groundtruthOf_head or' st.pad_idx labels hlab
  obtain ⟨f0, hf0⟩ : ∃ f0, filenames.head? = some f0 := by
    cases filenames with
    | nil => exact absurd rfl hfn
    | cons f fs => exact ⟨f, rfl⟩
  cases hml : metricLoop or' (modelLogProbs or' padFrame features).1
      (modelLogProbs or' padFrame features).2 (hypothesisOf or' padFrame features)
      (groundtruthOf or' st.pad_idx labels) st.metrics
      (appendRec records "loss"
        (Val.num (or'.ctcLoss (modelLogProbs or' padFrame features).1.transpose
          (pad_sequence labels st.pad_idx) (modelLogProbs or' padFrame features).2
          (lengthsOf labels)))) with
  | mk r2 b2 =>
    have hb2 : b2 = true := by
      have := metricLoop_snd_true or' (modelLogProbs or' padFrame features).1
        (modelLogProbs or' padFrame features).2 (hypothesisOf or' padFrame features)
        (groundtruthOf or' st.pad_idx labels) st.metrics
        (appendRec records "loss"
          (Val.num (or'.ctcLoss (modelLogProbs or' padFrame features).1.transpose
            (pad_sequence labels st.pad_idx) (modelLogProbs or' padFrame features).2
            (lengthsOf labels)))) hres
      rw [hml] at this
      exact this
    subst hb2
    have hr2 : r2 = (metricLoop or' (modelLogProbs or' padFrame features).1
        (modelLogProbs or' padFrame features).2 (hypothesisOf or' padFrame features)
        (groundtruthOf or' st.pad_idx labels) st.metrics
        (appendRec records "loss"
          (Val.num (or'.ctcLoss (modelLogProbs or' padFrame features).1.transpose
            (pad_sequence labels st.pad_idx) (modelLogProbs or' padFrame features).2
            (lengthsOf labels))))).1 := by
      rw [hml]
    have hfwd : forward st or' padFrame features labels filenames records =
        FwdOut.ok (appendRec (appendRec (appendRec r2 "hypothesis" (Val.str h0))
          "groundtruth" (Val.str g0)) "filename" (Val.str f0))
          (or'.ctcLoss (modelLogProbs or' padFrame features).1.transpose
            (pad_sequence labels st.pad_idx) (modelLogProbs or' padFrame features).2
            (lengthsOf labels)) := by
      simp only [forward, hie, Bool.false_eq_true, if_false, forwardCtcInputs_fst,
        forwardCtcInputs_len]
      rw [show (forwardCtcInputs or' padFrame st.pad_idx features labels).2.1 =
        pad_sequence labels st.pad_idx from rfl,
        show (forwardCtcInputs or' padFrame st.pad_idx features labels).2.2.2 =
        lengthsOf labels from rfl]
      rw [hml, hh0, hg0, hf0]
    rw [hfwd]
    simp only [FwdOut.isOk, FwdOut.recordsOf]
    have hlossne1 : ("loss" : String) ≠ "hypothesis" := by decide
    refine ⟨trivial, ?_, ?_, ?_, ?_, ?_, ?_⟩
    · rw [lookupD_appendRec_ne _ _ _ _ (by decide : ("loss" : String) ≠ "filename"),
        lookupD_appendRec_ne _ _ _ _ (by decide : ("loss" : String) ≠ "groundtruth"),
        lookupD_appendRec_ne _ _ _ _ hlossne1, hr2,
        metricLoop_lookupD_not_mem _ _ _ _ _ _ _ _
          (fun hmem => ((hdisj _ hmem).1 rfl)),
        lookupD_appendRec_self]
      simp
    · intro m hm
      obtain ⟨hm1, hm2, hm3, hm4⟩ := hdisj m hm
      rw [lookupD_appendRec_ne _ _ _ _ hm4, lookupD_appendRec_ne _ _ _ _ hm3,
        lookupD_appendRec_ne _ _ _ _ hm2, hr2,
        metricLoop_lookupD_mem _ _ _ _ _ _ _ _ hnd hm hres,
        lookupD_appendRec_ne _ _ _ _ hm1]
    · refine ⟨h0, hh0, ?_⟩
      rw [lookupD_appendRec_ne _ _ _ _ (by decide : ("hypothesis" : String) ≠ "filename"),
        lookupD_appendRec_ne _ _ _ _ (by decide : ("hypothesis" : String) ≠ "groundtruth"),
        lookupD_appendRec_self, hr2,
        metricLoop_lookupD_not_mem _ _ _ _ _ _ _ _
          (fun hmem => ((hdisj _ hmem).2.1 rfl)),
        lookupD_appendRec_ne _ _ _ _ (by decide : ("hypothesis" : String) ≠ "loss")]
    · refine ⟨g0, hg0, ?_⟩
      rw [lookupD_appendRec_ne _ _ _ _ (by decide : ("groundtruth" : String) ≠ "filename"),
        lookupD_appendRec_self,
        lookupD_appendRec_ne _ _ _ _ (by decide : ("groundtruth" : String) ≠ "hypothesis"),
        hr2,
        metricLoop_lookupD_not_mem _ _ _ _ _ _ _ _
          (fun hmem => ((hdisj _ hmem).2.2.1 rfl)),
        lookupD_appendRec_ne _ _ _ _ (by decide : ("groundtruth" : String) ≠ "loss")]
    · refine ⟨f0, hf0, ?_⟩
      rw [lookupD_appendRec_self,
        lookupD_appendRec_ne _ _ _ _ (by decide : ("filename" : String) ≠ "groundtruth"),
        lookupD_appendRec_ne _ _ _ _ (by decide : ("filename" : String) ≠ "hypothesis"),
        hr2,
        metricLoop_lookupD_not_mem _ _ _ _ _ _ _ _
          (fun hmem => ((hdisj _ hmem).2.2.2 rfl)),
        lookupD_appendRec_ne _ _ _ _ (by decide : ("filename" : String) ≠ "loss")]
    · intro k hk1 hk2 hk3 hk4 hk5
      rw [lookupD_appendRec_ne _ _ _ _ hk4, lookupD_appendRec_ne _ _ _ _ hk3,
        lookupD_appendRec_ne _ _ _ _ hk2, hr2,
        metricLoop_lookupD_not_mem _ _ _ _ _ _ _ _ hk5,
        lookupD_appendRec_ne _ _ _ _ hk1]

/-- Witness for C4 at a concrete batch of two utterances, applying the
theorem and reading off the normal return and the loss append. -/
theorem forward_appends_once_witness :
    (([[1, 2], [(3 : ℚ)]] : List (List ℚ)) ≠ []
      ∧ (modelLogProbs wOr 0 [[1, 2], [(3 : ℚ)]]).1 ≠ []
      ∧ ([[1], [2, 3]] : List (List ℕ)) ≠ []
      ∧ (["f1", "f2"] : List String) ≠ []
      ∧ (∀ m ∈ (wSt ["cer"] true 0).metrics, (wOr.metricFn m).isSome)
      ∧ (wSt ["cer"] true 0).metrics.Nodup
      ∧ (∀ m ∈ (wSt ["cer"] true 0).metrics,
          m ≠ "loss" ∧ m ≠ "hypothesis" ∧ m ≠ "groundtruth" ∧ m ≠ "filename"))
    ∧ (forward (wSt ["cer"] true 0) wOr 0 [[1, 2], [3]] [[1], [2, 3]] ["f1", "f2"]
        []).isOk = true
    ∧ (lookupD (forward (wSt ["cer"] true 0) wOr 0 [[1, 2], [3]] [[1], [2, 3]]
        ["f1", "f2"] []).recordsOf "loss").length = (lookupD [] "loss").length + 1 :=
  ⟨⟨by decide, by with_unfolding_all decide, by decide, by decide, by decide, by decide,
    by decide⟩,
   (forward_appends_once (wSt ["cer"] true 0) wOr 0 [[1, 2], [3]] [[1], [2, 3]]
      ["f1", "f2"] [] (by decide) (by with_unfolding_all decide) (by decide) (by decide)
      (by decide) (by decide) (by decide)).1,
   (forward_appends_once (wSt ["cer"] true 0) wOr 0 [[1, 2], [3]] [[1], [2, 3]]
      ["f1", "f2"] [] (by decide) (by with_unfolding_all decide) (by decide) (by decide)
      (by decide) (by decide) (by decide)).2.1⟩

/-! ### Claim C5 -/

/-- C5: per-utterance lengths are taken before padding; for label sequences
of lengths [3, 5, 2] and feature sequences of lengths [10, 12, 8], the padded
label and feature tensors have second dimension 5 and 12 respectively, and
the label tensor and label-length vector handed to the CTC loss are the
padded labels and the original unpadded lengths [3, 5, 2]. -/
theorem forward_padding_spec {α β : Type} (or' : Oracles α β) (padFrame : α) (padIdx : ℕ)
    (features : List (List α)) (labels : List (List ℕ))
    (hf : lengthsOf features = [10, 12, 8])
    (hl : lengthsOf labels = [3, 5, 2]) :
    lengthsOf (pad_sequence labels padIdx) = [5, 5, 5]
    ∧ lengthsOf (pad_sequence features padFrame) = [12, 12, 12]
    ∧ (forwardCtcInputs or' padFrame padIdx features labels).2.2.2 = [3, 5, 2]
    ∧ lengthsOf (forwardCtcInputs or' padFrame padIdx features labels).2.1 = [5, 5, 5] := by
  have hlb : labels.length = 3 := by
    have := congrArg List.length hl
    simpa [lengthsOf] using this
  have hfb : features.length = 3 := by
    have := congrArg List.length hf
    simpa [lengthsOf] using this
  have hmaxl : maxLen labels = 5 := by rw [maxLen, hl]; rfl
  have hmaxf : maxLen features = 12 := by rw [maxLen, hf]; rfl
  have h1 : lengthsOf (pad_sequence labels padIdx) = List.replicate 3 5 := by
    rw [lengthsOf_pad_sequence, hmaxl, hlb]
  have h2 : lengthsOf (pad_sequence features padFrame) = List.replicate 3 12 := by
    rw [lengthsOf_pad_sequence, hmaxf, hfb]
  exact ⟨h1, h2, hl, h1⟩

/-- Witness for C5 at concrete utterances of the stated lengths. -/
theorem forward_padding_spec_witness :
    (lengthsOf [List.replicate 10 (), List.replicate 12 (), List.replicate 8 ()] =
        [10, 12, 8]
      ∧ lengthsOf [List.replicate 3 0, List.replicate 5 0, List.replicate 2 0] = [3, 5, 2])
    ∧ lengthsOf (pad_sequence [List.replicate 3 0, List.replicate 5 0,
        List.replicate 2 0] 0) = [5, 5, 5]
    ∧ lengthsOf (pad_sequence [List.replicate 10 (), List.replicate 12 (),
        List.replicate 8 ()] ()) = [12, 12, 12]
    ∧ (forwardCtcInputs wOrU () 0
        [List.replicate 10 (), List.replicate 12 (), List.replicate 8 ()]
        [List.replicate 3 0, List.replicate 5 0, List.replicate 2 0]).2.2.2 = [3, 5, 2]
    ∧ lengthsOf (forwardCtcInputs wOrU () 0
        [List.replicate 10 (), List.replicate 12 (), List.replicate 8 ()]
        [List.replicate 3 0, List.replicate 5 0, List.replicate 2 0]).2.1 = [5, 5, 5] :=
  ⟨⟨by decide, by decide⟩,
    (forward_padding_spec wOrU () 0
      [List.replicate 10 (), List.replicate 12 (), List.replicate 8 ()]
      [List.replicate 3 0, List.replicate 5 0, List.replicate 2 0]
      (by decide) (by decide)).1,
    (forward_padding_spec wOrU () 0
      [List.replicate 10 (), List.replicate 12 (), List.replicate 8 ()]
      [List.replicate 3 0, List.replicate 5 0, List.replicate 2 0]
      (by decide) (by decide)).2.1,
    (forward_padding_spec wOrU () 0
      [List.replicate 10 (), List.replicate 12 (), List.replicate 8 ()]
      [List.replicate 3 0, List.replicate 5 0, List.replicate 2 0]
      (by decide) (by decide)).2.2.1,
    (forward_padding_spec wOrU () 0
      [List.replicate 10 (), List.replicate 12 (), List.replicate 8 ()]
      [List.replicate 3 0, List.replicate 5 0, List.replicate 2 0]
      (by decide) (by decide)).2.2.2⟩

/-! ### Claim C9 -/

/-- C9: metric names are resolved inside `forward` (construction takes no
metric registry at all); when some configured metric name is unresolvable,
`forward` raises, but only after the batch loss has been appended to
`records['loss']` — the text fields are untouched, so the accumulator is
left partially mutated. -/
theorem forward_metric_error_nonatomic {α β : Type} (st : ExpertState) (or' : Oracles α β)
    (padFrame : α) (features : List (List α)) (labels : List (List ℕ))
    (filenames : List String) (records : Records)
    (hfeat : features ≠ [])
    (hbad : ∃ m ∈ st.metrics, or'.metricFn m = none)
    (hdisj : "loss" ∉ st.metrics ∧ "hypothesis" ∉ st.metrics ∧
      "groundtruth" ∉ st.metrics ∧ "filename" ∉ st.metrics) :
    (forward st or' padFrame features labels filenames records).isOk = false
    ∧ (lookupD (forward st or' padFrame features labels filenames records).recordsOf
        "loss").length = (lookupD records "loss").length + 1
    ∧ lookupD (forward st or' padFrame features labels filenames records).recordsOf
        "hypothesis" = lookupD records "hypothesis"
    ∧ lookupD (forward st or' padFrame features labels filenames records).recordsOf
        "groundtruth" = lookupD records "groundtruth"
    ∧ lookupD (forward st or' padFrame features labels filenames records).recordsOf
        "filename" = lookupD records "filename" := by
  have hie : features.isEmpty = false := by
    cases features with
    | nil => exact absurd rfl hfeat
    | cons f fs => rfl
  cases hml : metricLoop or' (modelLogProbs or' padFrame features).1
      (modelLogProbs or' padFrame features).2 (hypothesisOf or' padFrame features)
      (groundtruthOf or' st.pad_idx labels) st.metrics
      (appendRec records "loss"
        (Val.num (or'.ctcLoss (modelLogProbs or' padFrame features).1.transpose
          (pad_sequence labels st.pad_idx) (modelLogProbs or' padFrame features).2
          (lengthsOf labels)))) with
  | mk r2 b2 =>
    have hb2 : b2 = false := by
      have := metricLoop_snd_false or' (modelLogProbs or' padFrame features).1
        (modelLogProbs or' padFrame features).2 (hypothesisOf or' padFrame features)
        (groundtruthOf or' st.pad_idx labels) st.metrics
        (appendRec records "loss"
          (Val.num (or'.ctcLoss (modelLogProbs or' padFrame features).1.transpose
            (pad_sequence labels st.pad_idx) (modelLogProbs or' padFrame features).2
            (lengthsOf labels)))) hbad
      rw [hml] at this
      exact this
    subst hb2
    have hr2 : r2 = (metricLoop or' (modelLogProbs or' padFrame features).1
        (modelLogProbs or' padFrame features).2 (hypothesisOf or' padFrame features)
        (groundtruthOf or' st.pad_idx labels) st.metrics
        (appendRec records "loss"
          (Val.num (or'.ctcLoss (modelLogProbs or' padFrame features).1.transpose
            (pad_sequence labels st.pad_idx) (modelLogProbs or' padFrame features).2
            (lengthsOf labels))))).1 := by
      rw [hml]
    have hfwd : forward st or' padFrame features labels filenames records =
        FwdOut.err r2 := by
      simp only [forward, hie, Bool.false_eq_true, if_false, forwardCtcInputs_fst,
        forwardCtcInputs_len]
      rw [show (forwardCtcInputs or' padFrame st.pad_idx features labels).2.1 =
        pad_sequence labels st.pad_idx from rfl,
        show (forwardCtcInputs or' padFrame st.pad_idx features labels).2.2.2 =
        lengthsOf labels from rfl]
      rw [hml]
    rw [hfwd]
    simp only [FwdOut.isOk, FwdOut.recordsOf]
    refine ⟨trivial, ?_, ?_, ?_, ?_⟩
    · rw [hr2, metricLoop_lookupD_not_mem _ _ _ _ _ _ _ _ hdisj.1,
        lookupD_appendRec_self]
      simp
    · rw [hr2, metricLoop_lookupD_not_mem _ _ _ _ _ _ _ _ hdisj.2.1,
        lookupD_appendRec_ne _ _ _ _ (by decide : ("hypothesis" : String) ≠ "loss")]
    · rw [hr2, metricLoop_lookupD_not_mem _ _ _ _ _ _ _ _ hdisj.2.2.1,
        lookupD_appendRec_ne _ _ _ _ (by decide : ("groundtruth" : String) ≠ "loss")]
    · rw [hr2, metricLoop_lookupD_not_mem _ _ _ _ _ _ _ _ hdisj.2.2.2,
        lookupD_appendRec_ne _ _ _ _ (by decide : ("filename" : String) ≠ "loss")]

/-- Witness for C9: the single configured metric `wer` does not resolve in
`wOr`; the call errors with the loss appended and the text fields
untouched. -/
theorem forward_metric_error_nonatomic_witness :
    (([[1, 2], [(3 : ℚ)]] : List (List ℚ)) ≠ []
      ∧ (∃ m ∈ (wSt ["wer"] true 0).metrics, wOr.metricFn m = none)
      ∧ ("loss" ∉ (wSt ["wer"] true 0).metrics
        ∧ "hypothesis" ∉ (wSt ["wer"] true 0).metrics
        ∧ "groundtruth" ∉ (wSt ["wer"] true 0).metrics
        ∧ "filename" ∉ (wSt ["wer"] true 0).metrics))
    ∧ (forward (wSt ["wer"] true 0) wOr 0 [[1, 2], [3]] [[1], [2, 3]] ["f1", "f2"]
        []).isOk = false
    ∧ (lookupD (forward (wSt ["wer"] true 0) wOr 0 [[1, 2], [3]] [[1], [2, 3]]
        ["f1", "f2"] []).recordsOf "loss").length = (lookupD [] "loss").length + 1
    ∧ lookupD (forward (wSt ["wer"] true 0) wOr 0 [[1, 2], [3]] [[1], [2, 3]]
        ["f1", "f2"] []).recordsOf "filename" = lookupD [] "filename" :=
  ⟨⟨by decide, ⟨"wer", by decide, rfl⟩, by decide, by decide, by decide, by decide⟩,
   (forward_metric_error_nonatomic (wSt ["wer"] true 0) wOr 0 [[1, 2], [3]] [[1], [2, 3]]
      ["f1", "f2"] [] (by decide) ⟨"wer", by decide, rfl⟩
      ⟨by decide, by decide, by decide, by decide⟩).1,
   (forward_metric_error_nonatomic (wSt ["wer"] true 0) wOr 0 [[1, 2], [3]] [[1], [2, 3]]
      ["f1", "f2"] [] (by decide) ⟨"wer", by decide, rfl⟩
      ⟨by decide, by decide, by decide, by decide⟩).2.1,
   (forward_metric_error_nonatomic (wSt ["wer"] true 0) wOr 0 [[1, 2], [3]] [[1], [2, 3]]
      ["f1", "f2"] [] (by decide) ⟨"wer", by decide, rfl⟩
      ⟨by decide, by decide, by decide, by decide⟩).2.2.2.2⟩

/-! ### Claim C10 -/

/-- C10: the greedy arg-max decode covers the full padded output tensor:
when every row of the model's log-probability output has the batch-maximum
length `T`, every per-utterance token sequence handed to the tokenizer's
repeat-collapsing decode has length `T`; and the hypothesis texts depend
only on the log-probability tensor and the decode function — the
per-utterance output lengths (`log_probs_len`) are never used to truncate
decoding. -/
theorem predTokens_full_window {α β : Type} (or' : Oracles α β) (padFrame : α)
    (features : List (List α)) (T : ℕ)
    (hT : ∀ row ∈ (modelLogProbs or' padFrame features).1, row.length = T) :
    (∀ t ∈ predTokens or' padFrame features, t.length = T)
    ∧ (∀ or2 : Oracles α β,
        (modelLogProbs or2 padFrame features).1 = (modelLogProbs or' padFrame features).1 →
        or2.decode = or'.decode →
        hypothesisOf or2 padFrame features = hypothesisOf or' padFrame features) := by
  constructor
  · intro t ht
    simp only [predTokens, List.mem_map] at ht
    obtain ⟨row, hrow, hmap⟩ := ht
    rw [← hmap]
    simp [hT row hrow]
  · intro or2 h1 h2
    simp only [hypothesisOf, predTokens, h1, h2]

/-- Witness for C10: a two-utterance batch whose padded output has uniform
time length 2. -/
theorem predTokens_full_window_witness :
    (∀ row ∈ (modelLogProbs wOr 0 [[1, 2], [(3 : ℚ)]]).1, row.length = 2)
    ∧ (∀ t ∈ predTokens wOr 0 [[1, 2], [(3 : ℚ)]], t.length = 2)
    ∧ (∀ or2 : Oracles ℚ ℚ,
        (modelLogProbs or2 0 [[1, 2], [(3 : ℚ)]]).1 =
          (modelLogProbs wOr 0 [[1, 2], [(3 : ℚ)]]).1 →
        or2.decode = wOr.decode →
        hypothesisOf or2 0 [[1, 2], [(3 : ℚ)]] = hypothesisOf wOr 0 [[1, 2], [(3 : ℚ)]]) :=
  ⟨by with_unfolding_all decide,
   (predTokens_full_window wOr 0 [[1, 2], [(3 : ℚ)]] 2 (by with_unfolding_all decide)).1,
   (predTokens_full_window wOr 0 [[1, 2], [(3 : ℚ)]] 2 (by with_unfolding_all decide)).2⟩

end S3prlCtc
